import Mathlib

/-!
Verification of the FRIDAY book-recommender pipeline (`app.py`).

The development shallowly embeds the program's data pipeline and query layer:

* `load_data`       : reads the two CSV tables and left-joins ratings to book
                      metadata on ISBN (pandas `merge(..., how="left")`);
* `prepare_data`    : the asymmetric two-pass popularity/activity filter with
                      both thresholds fixed at 50;
* `book_pivot`      : `pivot_table(index='Book-Title', columns='User-ID',
                      values='Book-Rating').fillna(0)` — pandas sorts the
                      index and columns, drops rows whose index key is null,
                      and aggregates duplicate (title, user) cells with the
                      default `aggfunc='mean'`;
* `create_model`    : builds the pivot and fits the brute-force cosine
                      nearest-neighbor index; scikit-learn's `fit` rejects an
                      empty sample set (`ensure_min_samples=1`), modelled by
                      returning `none` for an empty pivot;
* `kneighbors`      : brute-force cosine k-nearest-neighbor query.  Cosine
                      similarity of a fixed query `q` against a row `r` is
                      `dot q r / (‖q‖ * ‖r‖)`; rows are ranked without square
                      roots through the rational key
                      `simKey q r = dot q r * |dot q r| / ‖r‖²`, a strictly
                      monotone function of the similarity for fixed `q`
                      (zero-norm vectors get similarity 0, matching
                      scikit-learn's `normalize`, which maps zero vectors to
                      zero).  Ties are broken by row index, one concrete
                      deterministic refinement of the library's unspecified
                      tie order;
* `get_cover_url`, `display_book_card`, `recommend_books`, `book_list` :
                      the query/presentation layer; a `Card` records the
                      rendered fields and exceptions surface as
                      `RecOutcome.error`.

Ratings are embedded as exact rationals, so every similarity comparison is
decidable and the whole pipeline is executable.
-/

namespace FridayRec

/-- Row of `Books.csv`: ISBN key plus nullable metadata columns. -/
structure Book where
  isbn : String
  title : Option String
  author : Option String
  publisher : Option String
  year : Option Int
deriving DecidableEq

/-- Row of `Ratings.csv` before the metadata join. -/
structure RawRating where
  userId : Int
  isbn : String
  rating : ℚ
deriving DecidableEq

/-- Rating row after `load_data`'s left join: metadata columns are null when
the ISBN has no match in the book catalog. -/
structure RatingRec where
  userId : Int
  isbn : String
  rating : ℚ
  title : Option String
  author : Option String
  publisher : Option String
  year : Option Int
deriving DecidableEq

/-- The load stage: `ratings.merge(books[[...]], on="ISBN", how="left")`.
Each rating row is paired with every catalog row sharing its ISBN; an
unmatched ISBN keeps the row with null metadata. -/
def load_data (books : List Book) (raw : List RawRating) : List RatingRec :=
  raw.flatMap fun r =>
    match books.filter (fun b => decide (b.isbn = r.isbn)) with
    | [] => [⟨r.userId, r.isbn, r.rating, none, none, none, none⟩]
    | ms => ms.map fun b => ⟨r.userId, r.isbn, r.rating, b.title, b.author, b.publisher, b.year⟩

/-- Number of rating rows carrying the (non-null) title `t`; this is the
entry of `ratings['Book-Title'].value_counts()` at `t`. -/
def titleCount (rs : List RatingRec) (t : String) : Nat :=
  (rs.filter (fun r => decide (r.title = some t))).length

/-- First pass of the filter: keep rows whose title occurs more than 50
times in `rs` (`value_counts` drops null titles, so a null-titled row never
belongs to `popular_books`). -/
def popularFiltered (rs : List RatingRec) : List RatingRec :=
  rs.filter fun r =>
    match r.title with
    | some t => decide (50 < titleCount rs t)
    | none => false

/-- Number of rating rows by user `u`, an entry of
`filtered_ratings['User-ID'].value_counts()`. -/
def userCount (rs : List RatingRec) (u : Int) : Nat :=
  (rs.filter (fun r => decide (r.userId = u))).length

/-- The filter stage `prepare_data`: title popularity is counted in the
original set, user activity in the already title-filtered subset. -/
def prepare_data (rs : List RatingRec) : List RatingRec :=
  (popularFiltered rs).filter fun r =>
    decide (50 < userCount (popularFiltered rs) r.userId)

/-- Lexicographic code-point comparison of character lists, the order Python
uses on strings. -/
def lexLe : List Char → List Char → Bool
  | [], _ => true
  | _ :: _, [] => false
  | a :: x, b :: y =>
    if a.toNat < b.toNat then true
    else if b.toNat < a.toNat then false
    else lexLe x y

/-- String comparison by code points, matching Python's `sorted` order. -/
def strLe (a b : String) : Bool :=
  lexLe a.data b.data

/-- Ascending insertion sort on strings (pandas sorts the pivot index). -/
def sortStrings (l : List String) : List String :=
  List.insertionSort (fun a b => strLe a b = true) l

/-- Ascending insertion sort on integers (pandas sorts the pivot columns). -/
def sortInts (l : List Int) : List Int :=
  List.insertionSort (fun a b => a ≤ b) l

/-- Rows that survive into the pivot: `pivot_table` drops rows whose index
key (`Book-Title`) is null. -/
def validRows (rs : List RatingRec) : List RatingRec :=
  rs.filter fun r => decide (r.title ≠ none)

/-- The pivot's row labels: distinct non-null titles, sorted ascending. -/
def pivotIndex (rs : List RatingRec) : List String :=
  sortStrings (rs.filterMap RatingRec.title).dedup

/-- The pivot's column labels: distinct users among rows with a non-null
title, sorted ascending (a user whose every rating has a null title would
yield an all-null column, which `dropna=True` removes). -/
def pivotCols (rs : List RatingRec) : List Int :=
  sortInts ((validRows rs).map RatingRec.userId).dedup

/-- The ratings aggregated into cell `(t, u)` of the pivot. -/
def cellRatings (rs : List RatingRec) (t : String) (u : Int) : List ℚ :=
  (rs.filter (fun r => decide (r.title = some t) && decide (r.userId = u))).map RatingRec.rating

/-- Cell value of the pivot: `pivot_table`'s default `aggfunc='mean'` over
the matching ratings, and `fillna(0)` when there are none. -/
def cellValue (rs : List RatingRec) (t : String) (u : Int) : ℚ :=
  if (cellRatings rs t u).length = 0 then 0
  else (cellRatings rs t u).sum / ((cellRatings rs t u).length : ℚ)

/-- The book × user rating matrix with its labels, as built by
`pivot_table(...).fillna(0)`. -/
structure PivotData where
  index : List String
  columns : List Int
  values : List (List ℚ)
deriving DecidableEq

/-- `book_pivot`: rows follow the sorted index, columns the sorted users. -/
def book_pivot (rs : List RatingRec) : PivotData :=
  ⟨pivotIndex rs, pivotCols rs,
    (pivotIndex rs).map fun t => (pivotCols rs).map fun u => cellValue rs t u⟩

/-- `create_model`: builds the pivot and fits the nearest-neighbor index.
`NearestNeighbors.fit` raises `ValueError` on an empty sample set
(`check_array` demands at least one sample), so the result is `none` exactly
when the pivot has no rows; the fitted model itself is the row matrix. -/
def create_model (rs : List RatingRec) : Option PivotData :=
  if (book_pivot rs).index.isEmpty then none else some (book_pivot rs)

/-- Positional cell lookup in the built matrix, `book_pivot.loc[t, u]`. -/
def pivotCell (p : PivotData) (t : String) (u : Int) : ℚ :=
  (p.values.getD (p.index.indexOf t) []).getD (p.columns.indexOf u) 0

/-- Dot product of two rating vectors. -/
def dot : List ℚ → List ℚ → ℚ
  | a :: x, b :: y => a * b + dot x y
  | _, _ => 0

/-- Squared Euclidean norm of a rating vector. -/
def normSq : List ℚ → ℚ
  | [] => 0
  | a :: x => a * a + normSq x

/-- Rational ranking key for cosine similarity of row `r` against a fixed
query `q`: equals `sign(s) * s^2 * ‖q‖²` where `s` is the cosine similarity,
hence strictly monotone in `s`; zero-norm vectors rank as similarity 0,
matching scikit-learn's zero-safe normalisation. -/
def simKey (q r : List ℚ) : ℚ :=
  if normSq q = 0 ∨ normSq r = 0 then 0
  else dot q r * |dot q r| / normSq r

/-- Neighbor ordering used by the brute-force query: greater similarity key
first, ties broken by ascending row index. -/
def nbRel (rows : List (List ℚ)) (q : List ℚ) (i j : Nat) : Prop :=
  simKey q (rows.getD j []) < simKey q (rows.getD i []) ∨
    (simKey q (rows.getD i []) = simKey q (rows.getD j []) ∧ i ≤ j)

instance nbRelDecidable (rows : List (List ℚ)) (q : List ℚ) :
    DecidableRel (nbRel rows q) := fun i j => by
  unfold nbRel
  infer_instance

/-- All row indices ranked from nearest to farthest from the query. -/
def sortIdx (rows : List (List ℚ)) (q : List ℚ) : List Nat :=
  List.insertionSort (nbRel rows q) (List.range rows.length)

/-- `model.kneighbors(q, n_neighbors=k)` restricted to the returned index
array: `none` models the `ValueError` raised when `k` exceeds the number of
fitted samples. -/
def kneighbors (rows : List (List ℚ)) (q : List ℚ) (k : Nat) : Option (List Nat) :=
  if rows.length < k then none else some ((sortIdx rows q).take k)

/-- Cosine distance between `q` and `r` is zero: the similarity
`dot q r / (‖q‖ * ‖r‖)` equals 1, i.e. the dot product is positive and its
square attains the Cauchy-Schwarz bound. -/
def cosDistZero (q r : List ℚ) : Prop :=
  0 < dot q r ∧ dot q r * dot q r = normSq q * normSq r

/-- Python's `str.strip()`: drop leading and trailing whitespace. -/
def stripStr (s : String) : String :=
  ⟨(((s.data.dropWhile Char.isWhitespace).reverse).dropWhile Char.isWhitespace).reverse⟩

/-- Helper `get_cover_url`: placeholder for a null or blank ISBN, otherwise
the Open Library cover endpoint templated on the ISBN. -/
def get_cover_url (isbn : Option String) : String :=
  match isbn with
  | none => "https://via.placeholder.com/100x150?text=No+Cover"
  | some s =>
    if stripStr s = "" then "https://via.placeholder.com/100x150?text=No+Cover"
    else "https://covers.openlibrary.org/b/isbn/" ++ s ++ "-M.jpg"

/-- One rendered book card: the texts and image URLs that appear in the
HTML, including the client-side `onerror` fallback image. -/
structure Card where
  title : String
  author : String
  publisher : String
  year : String
  coverUrl : String
  fallbackUrl : String
  tag : String
deriving DecidableEq

/-- Year rendering in `display_book_card`:
`str(int(year)) if pd.notna(year) and str(year).replace('.', '').isdigit()
else "Unknown"` on an integer-or-null column — a negative year fails
`isdigit` because of its sign character. -/
def displayYear : Option Int → String
  | none => "Unknown"
  | some n => if 0 ≤ n then toString n else "Unknown"

/-- `display_book_card`: null author/publisher render as "Unknown", the year
through `displayYear`, and every card carries the placeholder as its
`onerror` fallback image. -/
def display_book_card (t : String) (author publisher : Option String)
    (year : Option Int) (isbn : Option String) (tag : String) : Card :=
  ⟨t, author.getD "Unknown", publisher.getD "Unknown", displayYear year,
    get_cover_url isbn, "https://via.placeholder.com/100x150?text=No+Cover", tag⟩

/-- Result of `recommend_books`: the user-facing "not found" message, an
uncaught exception, or the rendered selection plus recommendation cards. -/
inductive RecOutcome where
  | notFound
  | error
  | output (selected : Card) (recs : List Card)
deriving DecidableEq

/-- `books[books['Book-Title'] == t].iloc[0]`: the first catalog row with
title `t`, or `none` when `iloc[0]` would raise `IndexError`. -/
def titleMatch (books : List Book) (t : String) : Option Book :=
  (books.filter (fun b => decide (b.title = some t))).head?

/-- Rendering of a single recommendation: translate the neighbor's row
number back to a title through the pivot index, then look its metadata up in
the catalog by title. -/
def cardFor (books : List Book) (p : PivotData) (tag : String) (j : Nat) : Option Card :=
  match p.index[j]? with
  | none => none
  | some t =>
    match titleMatch books t with
    | none => none
    | some b => some (display_book_card t b.author b.publisher b.year (some b.isbn) tag)

/-- The rendering loop over the suggested row numbers; any failed lookup
aborts the whole operation, as an uncaught exception would. -/
def cardsFor (books : List Book) (p : PivotData) (tag : String) : List Nat → Option (List Card)
  | [] => some []
  | j :: l =>
    match cardFor books p tag j, cardsFor books p tag l with
    | some c, some cs => some (c :: cs)
    | _, _ => none

/-- `recommend_books`: report "not found" for a title outside the pivot
index; otherwise query 6 nearest neighbors on the title's own row, render
the selected book, and render one card per suggestion after the first
(`for i in range(1, len(suggestions[0]))`). -/
def recommend_books (books : List Book) (p : PivotData) (name : String) : RecOutcome :=
  if name ∈ p.index then
    match kneighbors p.values (p.values.getD (p.index.indexOf name) []) 6 with
    | none => RecOutcome.error
    | some sugg =>
      match titleMatch books name with
      | none => RecOutcome.error
      | some sb =>
        match cardsFor books p "Recommended" (sugg.drop 1) with
        | none => RecOutcome.error
        | some recs =>
          RecOutcome.output
            (display_book_card name sb.author sb.publisher sb.year (some sb.isbn) "Your Selection")
            recs
  else RecOutcome.notFound

/-- `book_list = sorted(list(book_pivot.index))`, the selectbox contents. -/
def book_list (p : PivotData) : List String :=
  sortStrings p.index

/-- Whether the query produced a rendered output. -/
def isOutput : RecOutcome → Bool
  | RecOutcome.output _ _ => true
  | _ => false

/-- Titles of the rendered recommendation cards. -/
def recTitles : RecOutcome → List String
  | RecOutcome.output _ recs => recs.map Card.title
  | _ => []

/-- Number of rendered recommendation cards. -/
def recCount : RecOutcome → Nat
  | RecOutcome.output _ recs => recs.length
  | _ => 0

/-- The full load → filter → build pipeline executed at process start. -/
def pipeline (books : List Book) (raw : List RawRating) : Option PivotData :=
  create_model (prepare_data (load_data books raw))

/-- A query against the pipeline's model, `none` when startup failed. -/
def pipelineQuery (books : List Book) (raw : List RawRating) (name : String) :
    Option RecOutcome :=
  (pipeline books raw).map fun p => recommend_books books p name

/-! ### Order lemmas for the string sort -/

theorem lexLe_total : ∀ x y : List Char, lexLe x y = true ∨ lexLe y x = true
  | [], _ => Or.inl rfl
  | _ :: _, [] => Or.inr rfl
  | a :: x, b :: y => by
    rcases Nat.lt_trichotomy a.toNat b.toNat with h | h | h
    · exact Or.inl (by rw [lexLe, if_pos h])
    · have h1 : ¬ a.toNat < b.toNat := by omega
      have h2 : ¬ b.toNat < a.toNat := by omega
      rcases lexLe_total x y with hxy | hyx
      · exact Or.inl (by rw [lexLe, if_neg h1, if_neg h2]; exact hxy)
      · exact Or.inr (by rw [lexLe, if_neg h2, if_neg h1]; exact hyx)
    · exact Or.inr (by rw [lexLe, if_pos h])

theorem lexLe_trans : ∀ x y z : List Char,
    lexLe x y = true → lexLe y z = true → lexLe x z = true
  | [], _, _ => fun _ _ => rfl
  | _ :: _, [], _ => fun h1 _ => by rw [lexLe] at h1; exact absurd h1 (by simp)
  | _ :: _, _ :: _, [] => fun _ h2 => by rw [lexLe] at h2; exact absurd h2 (by simp)
  | a :: x, b :: y, c :: z => fun h1 h2 => by
    rw [lexLe] at h1 h2 ⊢
    by_cases hab : a.toNat < b.toNat
    · by_cases hbc : b.toNat < c.toNat
      · rw [if_pos (by omega : a.toNat < c.toNat)]
      · have hcb : ¬ c.toNat < b.toNat := by
          by_contra hc
          rw [if_neg hbc, if_pos hc] at h2
          simp at h2
        rw [if_pos (by omega : a.toNat < c.toNat)]
    · have hba : ¬ b.toNat < a.toNat := by
        by_contra hc
        rw [if_neg hab, if_pos hc] at h1
        simp at h1
      rw [if_neg hab, if_neg hba] at h1
      by_cases hbc : b.toNat < c.toNat
      · rw [if_pos (by omega : a.toNat < c.toNat)]
      · have hcb : ¬ c.toNat < b.toNat := by
          by_contra hc
          rw [if_neg hbc, if_pos hc] at h2
          simp at h2
        rw [if_neg hbc, if_neg hcb] at h2
        rw [if_neg (by omega : ¬ a.toNat < c.toNat), if_neg (by omega : ¬ c.toNat < a.toNat)]
        exact lexLe_trans x y z h1 h2

theorem strLe_total (a b : String) : strLe a b = true ∨ strLe b a = true :=
  lexLe_total a.data b.data

theorem strLe_trans (a b c : String) (h1 : strLe a b = true) (h2 : strLe b c = true) :
    strLe a c = true :=
  lexLe_trans a.data b.data c.data h1 h2

theorem sortStrings_perm (l : List String) : List.Perm (sortStrings l) l :=
  List.perm_insertionSort _ l

theorem sortStrings_sorted (l : List String) :
    List.Sorted (fun a b => strLe a b = true) (sortStrings l) := by
  haveI : IsTotal String (fun a b => strLe a b = true) := ⟨strLe_total⟩
  haveI : IsTrans String (fun a b => strLe a b = true) := ⟨strLe_trans⟩
  exact List.sorted_insertionSort _ l

theorem sortInts_perm (l : List Int) : List.Perm (sortInts l) l :=
  List.perm_insertionSort _ l

/-! ### Membership lemmas for the filter stage and the pivot labels -/

theorem mem_popularFiltered (rs : List RatingRec) (r : RatingRec)
    (h : r ∈ popularFiltered rs) :
    r ∈ rs ∧ r.title ≠ none ∧ ∀ t, r.title = some t → 50 < titleCount rs t := by
  rw [popularFiltered] at h
  obtain ⟨hmem, hpred⟩ := List.mem_filter.mp h
  cases e : r.title with
  | none =>
    rw [e] at hpred
    simp at hpred
  | some t0 =>
    rw [e] at hpred
    refine ⟨hmem, by simp [e], ?_⟩
    intro t ht
    cases ht
    exact of_decide_eq_true hpred

theorem mem_prepare_data (rs : List RatingRec) (r : RatingRec) (h : r ∈ prepare_data rs) :
    r ∈ popularFiltered rs ∧ 50 < userCount (popularFiltered rs) r.userId := by
  rw [prepare_data] at h
  obtain ⟨hmem, hpred⟩ := List.mem_filter.mp h
  exact ⟨hmem, of_decide_eq_true hpred⟩

theorem prepare_data_title_ne_none (rs : List RatingRec) (r : RatingRec)
    (h : r ∈ prepare_data rs) : r.title ≠ none :=
  (mem_popularFiltered rs r (mem_prepare_data rs r h).1).2.1

theorem pivotIndex_nodup (rs : List RatingRec) : (pivotIndex rs).Nodup :=
  ((sortStrings_perm _).nodup_iff).mpr (List.nodup_dedup _)

theorem mem_pivotIndex (rs : List RatingRec) (t : String) :
    t ∈ pivotIndex rs ↔ ∃ r, r ∈ rs ∧ r.title = some t := by
  rw [pivotIndex, (sortStrings_perm _).mem_iff, List.mem_dedup, List.mem_filterMap]

theorem mem_pivotCols (rs : List RatingRec) (u : Int) :
    u ∈ pivotCols rs ↔ ∃ r, r ∈ rs ∧ r.title ≠ none ∧ r.userId = u := by
  rw [pivotCols, (sortInts_perm _).mem_iff, List.mem_dedup, List.mem_map]
  constructor
  · rintro ⟨r, hr, he⟩
    obtain ⟨h1, h2⟩ := List.mem_filter.mp hr
    exact ⟨r, h1, of_decide_eq_true h2, he⟩
  · rintro ⟨r, hr, ht, he⟩
    exact ⟨r, List.mem_filter.mpr ⟨hr, decide_eq_true ht⟩, he⟩

/-- C1: every row surviving the filter stage has a title rated more than 50
times in the original enriched rating set, and a user with more than 50
ratings inside the title-filtered subset (not the original set) — the
user-activity count is taken after book-popularity filtering. -/
theorem prepare_data_thresholds (rs : List RatingRec) (r : RatingRec) (t : String)
    (hmem : r ∈ prepare_data rs) (ht : r.title = some t) :
    50 < titleCount rs t ∧ 50 < userCount (popularFiltered rs) r.userId := by
  obtain ⟨hpf, huser⟩ := mem_prepare_data rs r hmem
  obtain ⟨-, -, hcount⟩ := mem_popularFiltered rs r hpf
  exact ⟨hcount t ht, huser⟩

/-- C3: a title absent from the pivot index makes `recommend_books` signal
the user-facing "not found" outcome; the function returns that constructor
immediately, before any matrix lookup or neighbor query, and (being a pure
function of the immutable pivot) changes no state. -/
theorem recommend_not_found (books : List Book) (p : PivotData) (name : String)
    (h : name ∉ p.index) : recommend_books books p name = RecOutcome.notFound := by
  rw [recommend_books, if_neg h]

/-- C7: a null author or publisher renders as "Unknown", a null year renders
as "Unknown", every card carries the placeholder as its `onerror` fallback
image, and a null ISBN resolves to the placeholder cover — the card is
always produced, so metadata gaps never block the display. -/
theorem card_metadata_gaps (t : String) (a p : Option String) (y : Option Int)
    (i : Option String) (tag : String) :
    (display_book_card t none p y i tag).author = "Unknown" ∧
      (display_book_card t a none y i tag).publisher = "Unknown" ∧
      (display_book_card t a p none i tag).year = "Unknown" ∧
      (display_book_card t a p y i tag).fallbackUrl =
        "https://via.placeholder.com/100x150?text=No+Cover" ∧
      (display_book_card t a p y none tag).coverUrl =
        "https://via.placeholder.com/100x150?text=No+Cover" ∧
      (display_book_card t a p y i tag).title = t :=
  ⟨rfl, rfl, rfl, rfl, rfl, rfl⟩

/-- C9: the load → filter → build pipeline and the subsequent neighbor query
are deterministic functions of the two input tables: equal inputs give a
bit-identical matrix and identical query outcomes. -/
theorem pipeline_deterministic (b1 b2 : List Book) (r1 r2 : List RawRating)
    (name : String) (hb : b1 = b2) (hr : r1 = r2) :
    pipeline b1 r1 = pipeline b2 r2 ∧
      pipelineQuery b1 r1 name = pipelineQuery b2 r2 name := by
  subst hb
  subst hr
  exact ⟨rfl, rfl⟩

/-- C10: a null ISBN or one whose string form strips to the empty string
yields the fixed placeholder URL; any other ISBN yields the Open Library URL
templated on it. -/
theorem cover_url_spec (s1 s2 : String) (h1 : stripStr s1 = "") (h2 : stripStr s2 ≠ "") :
    get_cover_url none = "https://via.placeholder.com/100x150?text=No+Cover" ∧
      get_cover_url (some s1) = "https://via.placeholder.com/100x150?text=No+Cover" ∧
      get_cover_url (some s2) = "https://covers.openlibrary.org/b/isbn/" ++ s2 ++ "-M.jpg" := by
  refine ⟨rfl, ?_, ?_⟩
  · simp only [get_cover_url]
    rw [if_pos h1]
  · simp only [get_cover_url]
    rw [if_neg h2]

/-- C5 counterexample: on an empty rating set the filter yields the empty
set, but `create_model` on that empty filtered set fails (scikit-learn's
`fit` raises `ValueError` on an empty sample matrix), so the downstream
stage does not accept the empty output. -/
theorem empty_model_counterexample :
    prepare_data ([] : List RatingRec) = [] ∧
      create_model (prepare_data ([] : List RatingRec)) = none :=
  ⟨rfl, rfl⟩

/-- C5 amended: the filter stage itself never fails — it is total and always
returns a sublist of its input, the empty list being a possible output — but
the downstream model construction does not tolerate an empty filtered set:
fitting succeeds exactly when the filtered set is nonempty. -/
theorem filter_empty_model_behavior (rs : List RatingRec) :
    List.Sublist (prepare_data rs) rs ∧
      ((create_model (prepare_data rs)).isSome ↔ prepare_data rs ≠ []) := by
  constructor
  · exact (List.filter_sublist _).trans (List.filter_sublist _)
  · rw [create_model]
    by_cases he : (book_pivot (prepare_data rs)).index.isEmpty
    · rw [if_pos he]
      have hnil : prepare_data rs = [] := by
        have h1 : pivotIndex (prepare_data rs) = [] := List.isEmpty_iff.mp he
        have h2 : ((prepare_data rs).filterMap RatingRec.title).dedup = [] := by
          have hp := sortStrings_perm ((prepare_data rs).filterMap RatingRec.title).dedup
          rw [pivotIndex] at h1
          rw [h1] at hp
          exact (hp.symm).eq_nil
        have h3 := (List.dedup_eq_nil _).mp h2
        cases e : prepare_data rs with
        | nil => rfl
        | cons r l =>
          have hr : r ∈ prepare_data rs := by rw [e]; exact List.mem_cons_self r l
          have := List.filterMap_eq_nil_iff.mp h3 r hr
          exact absurd this (prepare_data_title_ne_none rs r hr)
      simp [hnil]
    · rw [if_neg he]
      simp only [Option.isSome_some, true_iff]
      intro h
      rw [h] at he
      exact he rfl

/-- C8: the selection control is populated with exactly the distinct titles
surviving the filter (the pivot row index) in ascending code-point order
with no duplicates; a title with zero surviving ratings never appears. -/
theorem book_list_spec (rs : List RatingRec) (t : String) :
    List.Sorted (fun a b => strLe a b = true) (book_list (book_pivot (prepare_data rs))) ∧
      (book_list (book_pivot (prepare_data rs))).Nodup ∧
      (t ∈ book_list (book_pivot (prepare_data rs)) ↔
        ∃ r, r ∈ prepare_data rs ∧ r.title = some t) := by
  refine ⟨sortStrings_sorted _, ?_, ?_⟩
  · exact ((sortStrings_perm _).nodup_iff).mpr (pivotIndex_nodup _)
  · rw [book_list, (sortStrings_perm _).mem_iff]
    exact mem_pivotIndex _ t

/-! ### The similarity key: Cauchy–Schwarz and the self-similarity bound -/

theorem dot_self (x : List ℚ) : dot x x = normSq x := by
  induction x with
  | nil => rfl
  | cons a x ih => rw [dot, normSq, ih]

theorem normSq_nonneg (x : List ℚ) : 0 ≤ normSq x := by
  induction x with
  | nil => exact le_refl 0
  | cons a x ih =>
    rw [normSq]
    nlinarith [mul_self_nonneg a]

theorem two_mul_le_of_sq_le (u v w : ℚ) (hu : 0 ≤ u) (hv : 0 ≤ v)
    (h : w * w ≤ u * v) : 2 * w ≤ u + v := by
  rcases le_or_lt w 0 with hw | hw
  · linarith
  · have h4 : (2 * w) ^ 2 ≤ (u + v) ^ 2 := by nlinarith [sq_nonneg (u - v)]
    have h5 := le_of_pow_le_pow_left₀ (two_ne_zero) (by linarith : (0 : ℚ) ≤ u + v) h4
    linarith

theorem dot_sq_le (x : List ℚ) : ∀ y : List ℚ, dot x y * dot x y ≤ normSq x * normSq y := by
  induction x with
  | nil =>
    intro y
    simp [dot, normSq]
  | cons a x ih =>
    intro y
    cases y with
    | nil => simp [dot, normSq]
    | cons b y =>
      rw [dot, normSq, normSq]
      have hIH := ih y
      have h2 : 2 * (a * b * dot x y) ≤ a * a * normSq y + b * b * normSq x := by
        apply two_mul_le_of_sq_le
        · nlinarith [mul_self_nonneg a, normSq_nonneg y]
        · nlinarith [mul_self_nonneg b, normSq_nonneg x]
        · nlinarith [hIH, mul_self_nonneg (a * b)]
      nlinarith [hIH, h2]

theorem simKey_self (q : List ℚ) (hq : normSq q ≠ 0) : simKey q q = normSq q := by
  rw [simKey, if_neg (by push_neg; exact ⟨hq, hq⟩), dot_self,
    abs_of_nonneg (normSq_nonneg q), mul_div_assoc, div_self hq, mul_one]

theorem simKey_le_self (q r : List ℚ) : simKey q r ≤ simKey q q := by
  by_cases hq : normSq q = 0
  · have e1 : simKey q r = 0 := by rw [simKey, if_pos (Or.inl hq)]
    have e2 : simKey q q = 0 := by rw [simKey, if_pos (Or.inl hq)]
    rw [e1, e2]
  · rw [simKey_self q hq]
    by_cases hr : normSq r = 0
    · rw [simKey, if_pos (Or.inr hr)]
      exact normSq_nonneg q
    · rw [simKey, if_neg (by push_neg; exact ⟨hq, hr⟩)]
      have hrpos : 0 < normSq r := lt_of_le_of_ne (normSq_nonneg r) (Ne.symm hr)
      rw [div_le_iff₀ hrpos]
      have h1 : dot q r * |dot q r| ≤ dot q r * dot q r := by
        rcases le_or_lt (dot q r) 0 with hd | hd
        · rw [abs_of_nonpos hd]
          nlinarith [mul_self_nonneg (dot q r)]
        · rw [abs_of_pos hd]
      exact h1.trans (dot_sq_le q r)

theorem simKey_top (q r : List ℚ) (hq : normSq q ≠ 0) (h : simKey q r = normSq q) :
    cosDistZero q r := by
  have hqpos : 0 < normSq q := lt_of_le_of_ne (normSq_nonneg q) (Ne.symm hq)
  rw [simKey] at h
  by_cases hr : normSq r = 0
  · rw [if_pos (Or.inr hr)] at h
    exact absurd h.symm hq
  · rw [if_neg (by push_neg; exact ⟨hq, hr⟩)] at h
    have hrpos : 0 < normSq r := lt_of_le_of_ne (normSq_nonneg r) (Ne.symm hr)
    rw [div_eq_iff hr] at h
    have hdpos : 0 < dot q r := by
      rcases le_or_lt (dot q r) 0 with hd | hd
      · rw [abs_of_nonpos hd] at h
        nlinarith [mul_pos hqpos hrpos, mul_self_nonneg (dot q r)]
      · exact hd
    refine ⟨hdpos, ?_⟩
    rw [abs_of_pos hdpos] at h
    exact h

/-! ### The neighbor ordering and the sorted index list -/

theorem nbRel_refl (rows : List (List ℚ)) (q : List ℚ) (i : Nat) : nbRel rows q i i :=
  Or.inr ⟨rfl, le_refl i⟩

theorem nbRel_total (rows : List (List ℚ)) (q : List ℚ) (i j : Nat) :
    nbRel rows q i j ∨ nbRel rows q j i := by
  rcases lt_trichotomy (simKey q (rows.getD i [])) (simKey q (rows.getD j [])) with h | h | h
  · exact Or.inr (Or.inl h)
  · rcases Nat.le_total i j with hij | hij
    · exact Or.inl (Or.inr ⟨h, hij⟩)
    · exact Or.inr (Or.inr ⟨h.symm, hij⟩)
  · exact Or.inl (Or.inl h)

theorem nbRel_trans (rows : List (List ℚ)) (q : List ℚ) (i j k : Nat)
    (h1 : nbRel rows q i j) (h2 : nbRel rows q j k) : nbRel rows q i k := by
  rcases h1 with h1 | ⟨e1, l1⟩
  · rcases h2 with h2 | ⟨e2, l2⟩
    · exact Or.inl (h2.trans h1)
    · exact Or.inl (by rw [← e2]; exact h1)
  · rcases h2 with h2 | ⟨e2, l2⟩
    · exact Or.inl (by rw [e1]; exact h2)
    · exact Or.inr ⟨e1.trans e2, l1.trans l2⟩

theorem sortIdx_perm (rows : List (List ℚ)) (q : List ℚ) :
    List.Perm (sortIdx rows q) (List.range rows.length) :=
  List.perm_insertionSort _ _

theorem sortIdx_length (rows : List (List ℚ)) (q : List ℚ) :
    (sortIdx rows q).length = rows.length := by
  rw [(sortIdx_perm rows q).length_eq, List.length_range]

theorem mem_sortIdx (rows : List (List ℚ)) (q : List ℚ) (j : Nat) :
    j ∈ sortIdx rows q ↔ j < rows.length := by
  rw [(sortIdx_perm rows q).mem_iff, List.mem_range]

theorem sortIdx_nodup (rows : List (List ℚ)) (q : List ℚ) : (sortIdx rows q).Nodup :=
  ((sortIdx_perm rows q).nodup_iff).mpr (List.nodup_range _)

theorem sortIdx_sorted (rows : List (List ℚ)) (q : List ℚ) :
    List.Sorted (nbRel rows q) (sortIdx rows q) := by
  haveI : IsTotal Nat (nbRel rows q) := ⟨nbRel_total rows q⟩
  haveI : IsTrans Nat (nbRel rows q) := ⟨nbRel_trans rows q⟩
  exact List.sorted_insertionSort _ _

theorem sortIdx_head_rel (rows : List (List ℚ)) (q : List ℚ) (h : Nat) (t' : List Nat)
    (he : sortIdx rows q = h :: t') (x : Nat) (hx : x ∈ sortIdx rows q) :
    nbRel rows q h x := by
  rw [he] at hx
  rcases List.mem_cons.mp hx with rfl | hx'
  · exact nbRel_refl rows q x
  · have hs := sortIdx_sorted rows q
    rw [he] at hs
    exact (List.sorted_cons.mp hs).1 x hx'

theorem sortIdx_head_self (rows : List (List ℚ)) (i h : Nat) (t' : List Nat)
    (hi : i < rows.length)
    (hfirst : ∀ j ∈ List.range i, simKey (rows.getD i []) (rows.getD j []) <
      simKey (rows.getD i []) (rows.getD i []))
    (he : sortIdx rows (rows.getD i []) = h :: t') : h = i := by
  by_contra hne
  have hrel := sortIdx_head_rel rows (rows.getD i []) h t' he i
    ((mem_sortIdx rows (rows.getD i []) i).mpr hi)
  rcases Nat.lt_or_ge h i with hlt | hge
  · have hk := hfirst h (List.mem_range.mpr hlt)
    rcases hrel with hr | ⟨he2, -⟩
    · exact absurd hr (lt_asymm hk)
    · exact absurd he2 (ne_of_lt hk)
  · have hle2 : simKey (rows.getD i []) (rows.getD h []) ≤
        simKey (rows.getD i []) (rows.getD i []) := simKey_le_self _ _
    rcases hrel with hr | ⟨-, hle⟩
    · exact absurd hr (not_lt.mpr hle2)
    · exact hne (le_antisymm hle hge)

/-- C6 amended: a nearest-neighbor query on a fitted matrix with query
vector equal to a non-zero row `i` and `k = n` succeeds and returns all `n`
rows; row `i` itself is among the returned rows, and the first returned row
is at cosine distance 0 from the query.  (The first row need not be row `i`
itself: an identical row with a smaller index sorts ahead of it.) -/
theorem kneighbors_self_dist_zero (rows : List (List ℚ)) (i h : Nat)
    (hi : i < rows.length) (hnz : normSq (rows.getD i []) ≠ 0)
    (hh : (sortIdx rows (rows.getD i [])).head? = some h) :
    kneighbors rows (rows.getD i []) rows.length = some (sortIdx rows (rows.getD i [])) ∧
      i ∈ sortIdx rows (rows.getD i []) ∧
      cosDistZero (rows.getD i []) (rows.getD h []) := by
  refine ⟨?_, (mem_sortIdx rows _ i).mpr hi, ?_⟩
  · rw [kneighbors, if_neg (lt_irrefl rows.length)]
    congr 1
    rw [← sortIdx_length rows (rows.getD i [])]
    exact List.take_length _
  · cases he : sortIdx rows (rows.getD i []) with
    | nil =>
      rw [he] at hh
      cases hh
    | cons h0 t0 =>
      rw [he] at hh
      have h0h : h0 = h := by
        cases hh
        rfl
      subst h0h
      have hrel := sortIdx_head_rel rows (rows.getD i []) h0 t0 he i
        ((mem_sortIdx rows _ i).mpr hi)
      have hle1 : simKey (rows.getD i []) (rows.getD h0 []) ≤
          simKey (rows.getD i []) (rows.getD i []) := simKey_le_self _ _
      have hge1 : simKey (rows.getD i []) (rows.getD i []) ≤
          simKey (rows.getD i []) (rows.getD h0 []) := by
        rcases hrel with hr | ⟨e, -⟩
        · exact le_of_lt hr
        · exact e.ge
      have hkey : simKey (rows.getD i []) (rows.getD h0 []) = normSq (rows.getD i []) := by
        rw [le_antisymm hle1 hge1]
        exact simKey_self _ hnz
      exact simKey_top _ _ hnz hkey

/-! ### Structure of the built matrix -/

theorem book_pivot_values_length (rs : List RatingRec) :
    (book_pivot rs).values.length = (book_pivot rs).index.length := by
  simp [book_pivot]

theorem pivotCell_eq_cellValue (rs : List RatingRec) (t : String) (u : Int)
    (ht : t ∈ pivotIndex rs) (hu : u ∈ pivotCols rs) :
    pivotCell (book_pivot rs) t u = cellValue rs t u := by
  have hti := List.indexOf_lt_length.mpr ht
  have hui := List.indexOf_lt_length.mpr hu
  show (((pivotIndex rs).map (fun t0 => (pivotCols rs).map fun u0 => cellValue rs t0 u0)).getD
      ((pivotIndex rs).indexOf t) []).getD ((pivotCols rs).indexOf u) 0 = cellValue rs t u
  have hb1 : List.indexOf t (pivotIndex rs) <
      ((pivotIndex rs).map (fun t0 => (pivotCols rs).map fun u0 => cellValue rs t0 u0)).length := by
    rw [List.length_map]
    exact hti
  rw [List.getD_eq_getElem _ _ hb1]
  simp only [List.getElem_map]
  rw [List.getElem_indexOf hti]
  have hb2 : List.indexOf u (pivotCols rs) <
      ((pivotCols rs).map fun u0 => cellValue rs t u0).length := by
    rw [List.length_map]
    exact hui
  rw [List.getD_eq_getElem _ _ hb2]
  simp only [List.getElem_map]
  rw [List.getElem_indexOf hui]

/-- C2 amended: the built matrix has one row per distinct (non-null) title
and one column per distinct user of the title-bearing rows, every row vector
has one entry per column, and the cell for a pair `(t, u)` carries the
*mean* of that pair's ratings — equal to the given rating value whenever the
pair has exactly one rating row, and 0 when it has none.  (The original
claim's "appears as that given rating value" fails when a user rated two
same-titled editions differently: the cell then holds the mean, see the
counterexample.) -/
theorem pivot_contents (rs : List RatingRec) (t : String) (u : Int)
    (ht : t ∈ (book_pivot rs).index) (hu : u ∈ (book_pivot rs).columns) :
    (book_pivot rs).values.length = (book_pivot rs).index.length ∧
      (book_pivot rs).values.map List.length =
        List.replicate (book_pivot rs).index.length (book_pivot rs).columns.length ∧
      (book_pivot rs).index.length = (rs.filterMap RatingRec.title).dedup.length ∧
      (book_pivot rs).columns.length = ((validRows rs).map RatingRec.userId).dedup.length ∧
      (∀ s, s ∈ (book_pivot rs).index ↔ ∃ r, r ∈ rs ∧ r.title = some s) ∧
      (∀ v, v ∈ (book_pivot rs).columns ↔ ∃ r, r ∈ rs ∧ r.title ≠ none ∧ r.userId = v) ∧
      pivotCell (book_pivot rs) t u * ((cellRatings rs t u).length : ℚ) =
        (cellRatings rs t u).sum ∧
      (cellRatings rs t u = [] → pivotCell (book_pivot rs) t u = 0) ∧
      ((cellRatings rs t u).length = 1 →
        pivotCell (book_pivot rs) t u = (cellRatings rs t u).sum) := by
  have hcell := pivotCell_eq_cellValue rs t u ht hu
  refine ⟨book_pivot_values_length rs, ?_, ?_, ?_, mem_pivotIndex rs, mem_pivotCols rs,
    ?_, ?_, ?_⟩
  · simp only [book_pivot, List.map_map]
    have he : (List.length ∘ fun t0 => (pivotCols rs).map fun u0 => cellValue rs t0 u0) =
        fun _ => (pivotCols rs).length := by
      funext t0
      simp
    rw [he, List.map_const']
  · exact (sortStrings_perm _).length_eq
  · exact (sortInts_perm _).length_eq
  · rw [hcell, cellValue]
    by_cases hz : (cellRatings rs t u).length = 0
    · rw [if_pos hz, hz]
      rw [List.length_eq_zero] at hz
      rw [hz]
      simp
    · rw [if_neg hz]
      exact div_mul_cancel₀ _ (Nat.cast_ne_zero.mpr hz)
  · intro hz
    rw [hcell, cellValue, if_pos (by rw [hz]; rfl)]
  · intro hone
    rw [hcell, cellValue, if_neg (by omega), hone]
    simp

/-! ### Rendering of recommendation cards -/

theorem titleMatch_isSome (books : List Book) (t : String)
    (h : ∃ b, b ∈ books ∧ b.title = some t) : (titleMatch books t).isSome := by
  rw [titleMatch]
  obtain ⟨b, hb, hbt⟩ := h
  cases e : books.filter (fun b0 => decide (b0.title = some t)) with
  | nil =>
    have hmem : b ∈ books.filter (fun b0 => decide (b0.title = some t)) :=
      List.mem_filter.mpr ⟨hb, decide_eq_true hbt⟩
    rw [e] at hmem
    cases hmem
  | cons x l => rfl

theorem cardFor_isSome (books : List Book) (p : PivotData) (tag : String) (j : Nat)
    (hj : j < p.index.length)
    (hcat : ∀ s, s ∈ p.index → ∃ b, b ∈ books ∧ b.title = some s) :
    ∃ c, cardFor books p tag j = some c ∧ c.title = p.index[j] := by
  have hsome := titleMatch_isSome books p.index[j] (hcat _ (p.index.getElem_mem hj))
  obtain ⟨b, hb⟩ := Option.isSome_iff_exists.mp hsome
  refine ⟨display_book_card p.index[j] b.author b.publisher b.year (some b.isbn) tag, ?_, rfl⟩
  simp only [cardFor, List.getElem?_eq_getElem hj, hb]

theorem cardsFor_spec (books : List Book) (p : PivotData) (tag : String)
    (P : Card → Prop) :
    ∀ js : List Nat, (∀ j, j ∈ js → ∃ c, cardFor books p tag j = some c ∧ P c) →
      ∃ cs, cardsFor books p tag js = some cs ∧ cs.length = js.length ∧ ∀ c, c ∈ cs → P c
  | [], _ => ⟨[], rfl, rfl, fun c hc => absurd hc (List.not_mem_nil c)⟩
  | j :: l, h => by
    obtain ⟨c, hc, hP⟩ := h j (List.mem_cons_self j l)
    obtain ⟨cs, hcs, hlen, hall⟩ := cardsFor_spec books p tag P l
      (fun x hx => h x (List.mem_cons_of_mem j hx))
    refine ⟨c :: cs, ?_, by simp [hlen], ?_⟩
    · rw [cardsFor, hc, hcs]
    · intro c0 hc0
      rcases List.mem_cons.mp hc0 with rfl | hc0
      · exact hP
      · exact hall c0 hc0

theorem recommend_books_output (books : List Book) (p : PivotData) (name : String)
    (hnodup : p.index.Nodup)
    (hvl : p.values.length = p.index.length)
    (hmem : name ∈ p.index)
    (hn : 6 ≤ p.values.length)
    (hcat : ∀ s, s ∈ p.index → ∃ b, b ∈ books ∧ b.title = some s)
    (hfirst : ∀ j ∈ List.range (p.index.indexOf name),
      simKey (p.values.getD (p.index.indexOf name) []) (p.values.getD j []) <
        simKey (p.values.getD (p.index.indexOf name) [])
          (p.values.getD (p.index.indexOf name) [])) :
    isOutput (recommend_books books p name) = true ∧
      recCount (recommend_books books p name) = 5 ∧
      name ∉ recTitles (recommend_books books p name) := by
  have hti : p.index.indexOf name < p.index.length := List.indexOf_lt_length.mpr hmem
  have hiv : p.index.indexOf name < p.values.length := by omega
  obtain ⟨h0, t0, he⟩ : ∃ h0 t0,
      sortIdx p.values (p.values.getD (p.index.indexOf name) []) = h0 :: t0 := by
    cases e : sortIdx p.values (p.values.getD (p.index.indexOf name) []) with
    | nil =>
      have hl := sortIdx_length p.values (p.values.getD (p.index.indexOf name) [])
      rw [e] at hl
      simp at hl
      omega
    | cons a l => exact ⟨a, l, rfl⟩
  have hh0 : h0 = p.index.indexOf name :=
    sortIdx_head_self p.values (p.index.indexOf name) h0 t0 hiv hfirst he
  subst hh0
  have hk : kneighbors p.values (p.values.getD (p.index.indexOf name) []) 6 =
      some (p.index.indexOf name :: t0.take 5) := by
    rw [kneighbors, if_neg (by omega), he, List.take_succ_cons]
  have ht0len : t0.length = p.values.length - 1 := by
    have hl := sortIdx_length p.values (p.values.getD (p.index.indexOf name) [])
    rw [he] at hl
    simp only [List.length_cons] at hl
    omega
  have htake5 : (t0.take 5).length = 5 := by
    rw [List.length_take]
    omega
  have hcards : ∀ j, j ∈ t0.take 5 → ∃ c,
      cardFor books p "Recommended" j = some c ∧ c.title ≠ name := by
    intro j hj
    have hjt0 : j ∈ t0 := List.mem_of_mem_take hj
    have hjsort : j ∈ sortIdx p.values (p.values.getD (p.index.indexOf name) []) := by
      rw [he]
      exact List.mem_cons_of_mem _ hjt0
    have hjlt : j < p.values.length := (mem_sortIdx _ _ j).mp hjsort
    have hjlt2 : j < p.index.length := by omega
    have hji : j ≠ p.index.indexOf name := by
      intro hcontra
      have hnd := sortIdx_nodup p.values (p.values.getD (p.index.indexOf name) [])
      rw [he] at hnd
      exact absurd (hcontra ▸ hjt0) (List.nodup_cons.mp hnd).1
    obtain ⟨c, hc, hct⟩ := cardFor_isSome books p "Recommended" j hjlt2 hcat
    refine ⟨c, hc, ?_⟩
    rw [hct]
    intro hcontra
    have hname : p.index[p.index.indexOf name] = name := List.getElem_indexOf hti
    have heq : p.index[j] = p.index[p.index.indexOf name] := by
      rw [hname]
      exact hcontra
    exact hji ((List.Nodup.getElem_inj_iff hnodup).mp heq)
  obtain ⟨cs, hcs, hcslen, hcsall⟩ := cardsFor_spec books p "Recommended"
    (fun c => c.title ≠ name) (t0.take 5) hcards
  have hsb := titleMatch_isSome books name (hcat name hmem)
  obtain ⟨sb, hsbe⟩ := Option.isSome_iff_exists.mp hsb
  have hrb : recommend_books books p name = RecOutcome.output
      (display_book_card name sb.author sb.publisher sb.year (some sb.isbn) "Your Selection")
      cs := by
    rw [recommend_books, if_pos hmem, hk, hsbe]
    simp only [List.drop_succ_cons, List.drop_zero]
    rw [hcs]
  rw [hrb]
  refine ⟨rfl, ?_, ?_⟩
  · simp only [recCount]
    rw [hcslen, htake5]
  · simp only [recTitles]
    intro hcontra
    obtain ⟨c, hcmem, hceq⟩ := List.mem_map.mp hcontra
    exact absurd hceq (hcsall c hcmem)

/-- C4 amended: for a title in the row index of a built matrix with at least
6 rows whose index titles all occur in the catalog, the query renders an
output of exactly 5 recommendation cards — the results 2..6 of the
6-neighbor query, the first result being discarded — and, provided no
earlier row ties with the queried row at similarity 1 (the `hfirst`
hypothesis), the discarded first result is the queried row itself and none
of the rendered cards carries the queried title.  The proviso is necessary:
a duplicate of the queried row with a smaller index takes the first slot,
and the queried title is then rendered (see the counterexample). -/
theorem recommend_success_spec (books : List Book) (rs : List RatingRec) (name : String)
    (hmem : name ∈ (book_pivot rs).index)
    (hn : 6 ≤ (book_pivot rs).values.length)
    (hcat : ∀ s, s ∈ (book_pivot rs).index → ∃ b, b ∈ books ∧ b.title = some s)
    (hfirst : ∀ j ∈ List.range ((book_pivot rs).index.indexOf name),
      simKey ((book_pivot rs).values.getD ((book_pivot rs).index.indexOf name) [])
          ((book_pivot rs).values.getD j []) <
        simKey ((book_pivot rs).values.getD ((book_pivot rs).index.indexOf name) [])
          ((book_pivot rs).values.getD ((book_pivot rs).index.indexOf name) [])) :
    isOutput (recommend_books books (book_pivot rs) name) = true ∧
      recCount (recommend_books books (book_pivot rs) name) = 5 ∧
      name ∉ recTitles (recommend_books books (book_pivot rs) name) :=
  recommend_books_output books (book_pivot rs) name (pivotIndex_nodup rs)
    (book_pivot_values_length rs) hmem hn hcat hfirst

/-! ### Concrete scenarios for counterexamples and witnesses -/

set_option maxRecDepth 100000

theorem cellValue_single (rs : List RatingRec) (t : String) (u : Int) (x : ℚ)
    (h : cellRatings rs t u = [x]) : cellValue rs t u = x := by
  rw [cellValue, h]
  simp

/-- A single enriched rating row: user 7 rated ISBN "I" (title "T") with 8. -/
def recT : RatingRec := ⟨7, "I", 8, some "T", none, none, none⟩

/-- 51 identical copies of `recT`: the title has 51 > 50 ratings in the full
set and the user has 51 > 50 ratings inside the title-filtered subset, so
the whole set survives the filter. -/
def rsRep : List RatingRec := List.replicate 51 recT

/-- Witness for `prepare_data_thresholds`: the concrete row `recT` survives
filtering of `rsRep` and both counts exceed 50. -/
theorem prepare_data_thresholds_witness :
    50 < titleCount rsRep "T" ∧ 50 < userCount (popularFiltered rsRep) (7 : Int) :=
  prepare_data_thresholds rsRep recT "T" (by decide) (by decide)

/-- Witness for `recommend_not_found`: an unknown title on an empty pivot. -/
theorem recommend_not_found_witness :
    recommend_books [] ⟨[], [], []⟩ "Nonexistent Book XYZ" = RecOutcome.notFound :=
  recommend_not_found [] ⟨[], [], []⟩ "Nonexistent Book XYZ" (by decide)

/-- Witness for `pipeline_deterministic` at concrete (empty) input tables. -/
theorem pipeline_deterministic_witness :
    pipeline [] [] = pipeline [] [] ∧
      pipelineQuery [] [] "Alpha" = pipelineQuery [] [] "Alpha" :=
  pipeline_deterministic [] [] [] [] "Alpha" rfl rfl

/-- Witness for `cover_url_spec`: a whitespace-only and a real ISBN. -/
theorem cover_url_spec_witness :
    get_cover_url none = "https://via.placeholder.com/100x150?text=No+Cover" ∧
      get_cover_url (some "   ") = "https://via.placeholder.com/100x150?text=No+Cover" ∧
      get_cover_url (some "0451526538") =
        "https://covers.openlibrary.org/b/isbn/" ++ "0451526538" ++ "-M.jpg" :=
  cover_url_spec "   " "0451526538" (by decide) (by decide)

/-- Witness for `pivot_contents`: the mean equation at the concrete filtered
set `rsRep` and its only (title, user) pair. -/
theorem pivot_contents_witness :
    pivotCell (book_pivot rsRep) "T" 7 * ((cellRatings rsRep "T" 7).length : ℚ) =
      (cellRatings rsRep "T" 7).sum :=
  (pivot_contents rsRep "T" 7 (by decide) (by decide)).2.2.2.2.2.2.1

/-- One of user 7's two ratings of title "T": value 2 on edition "I1". -/
def recDup1 : RatingRec := ⟨7, "I1", 2, some "T", none, none, none⟩

/-- The other rating of title "T" by the same user: value 4 on edition "I2". -/
def recDup2 : RatingRec := ⟨7, "I2", 4, some "T", none, none, none⟩

/-- 102 rows: user 7 rated two editions of title "T" (values 2 and 4), 51
rows each, so the title count (102) and the user count (102) both clear the
threshold and the set is a fixed point of the filter stage. -/
def rsDup : List RatingRec := List.replicate 51 recDup1 ++ List.replicate 51 recDup2

/-- C2 counterexample: `rsDup` is itself a filtered rating set
(`prepare_data rsDup = rsDup`), the row `recDup1` of that set gives the pair
("T", 7) the rating value 2, yet the built matrix stores 3 — the mean of the
pair's ratings — in that cell, so a declared (title, user) rating does not
appear "as that given rating value". -/
theorem pivot_cell_mean_counterexample :
    prepare_data rsDup = rsDup ∧
      recDup1 ∈ prepare_data rsDup ∧
      recDup1.title = some "T" ∧ recDup1.userId = 7 ∧ recDup1.rating = 2 ∧
      pivotCell (book_pivot (prepare_data rsDup)) "T" 7 = 3 ∧
      ¬ ((3 : ℚ) = 2) ∧ ¬ ((3 : ℚ) = 4) := by
  have hfix : prepare_data rsDup = rsDup := by decide
  have hi : pivotIndex rsDup = ["T"] := by decide
  have hc : pivotCols rsDup = [7] := by decide
  have hr : cellRatings rsDup "T" 7 = List.replicate 51 2 ++ List.replicate 51 4 := by decide
  have hv : cellValue rsDup "T" 7 = 3 := by
    rw [cellValue, hr]
    norm_num [List.sum_replicate]
  have key : pivotCell (book_pivot rsDup) "T" 7 = cellValue rsDup "T" 7 := by
    simp only [pivotCell, book_pivot]
    rw [hi, hc]
    simp only [List.map_cons, List.map_nil]
    rfl
  refine ⟨hfix, by decide, by decide, by decide, by decide, ?_, by norm_num, by norm_num⟩
  rw [hfix, key, hv]

/-- Seven-book catalog covering the seven titles of `rs7`. -/
def books7 : List Book :=
  [⟨"iA", some "A", none, none, none⟩, ⟨"iB", some "B", none, none, none⟩,
   ⟨"iC", some "C", none, none, none⟩, ⟨"iD", some "D", none, none, none⟩,
   ⟨"iE", some "E", none, none, none⟩, ⟨"iF", some "F", none, none, none⟩,
   ⟨"iG", some "G", none, none, none⟩]

/-- Seven ratings by one user; titles "A" and "B" receive the same rating,
so their matrix rows are identical vectors. -/
def rs7 : List RatingRec :=
  [⟨1, "iA", 1, some "A", none, none, none⟩, ⟨1, "iB", 1, some "B", none, none, none⟩,
   ⟨1, "iC", 0, some "C", none, none, none⟩, ⟨1, "iD", 0, some "D", none, none, none⟩,
   ⟨1, "iE", 0, some "E", none, none, none⟩, ⟨1, "iF", 0, some "F", none, none, none⟩,
   ⟨1, "iG", 0, some "G", none, none, none⟩]

/-- The matrix `create_model` builds from `rs7`: seven rows, one column. -/
def p7 : PivotData :=
  ⟨["A", "B", "C", "D", "E", "F", "G"], [1], [[1], [1], [0], [0], [0], [0], [0]]⟩

/-- C4 counterexample: on the matrix built from `rs7` (7 ≥ 6 rows, catalog
coverage for every title), querying "B" — whose row duplicates row "A" —
renders recommendations that *include* "B" itself: the 6-neighbor query
ranks row "A" first (equal key, smaller index), so the discarded first
result is not the self-match and the self row survives into the cards. -/
theorem recommend_self_counterexample :
    create_model rs7 = some p7 ∧
      "B" ∈ p7.index ∧
      6 ≤ p7.values.length ∧
      isOutput (recommend_books books7 p7 "B") = true ∧
      recTitles (recommend_books books7 p7 "B") = ["B", "C", "D", "E", "F"] ∧
      "B" ∈ recTitles (recommend_books books7 p7 "B") := by
  have hcm : create_model rs7 = some p7 := by
    have hi : pivotIndex rs7 = ["A", "B", "C", "D", "E", "F", "G"] := by decide
    have hc : pivotCols rs7 = [1] := by decide
    have hv : book_pivot rs7 = p7 := by
      rw [book_pivot, hi, hc]
      simp only [List.map_cons, List.map_nil]
      rw [cellValue_single rs7 "A" 1 1 (by decide), cellValue_single rs7 "B" 1 1 (by decide),
        cellValue_single rs7 "C" 1 0 (by decide), cellValue_single rs7 "D" 1 0 (by decide),
        cellValue_single rs7 "E" 1 0 (by decide), cellValue_single rs7 "F" 1 0 (by decide),
        cellValue_single rs7 "G" 1 0 (by decide)]
      rfl
    rw [create_model, hv]
    rfl
  have hs : sortIdx p7.values (p7.values.getD (p7.index.indexOf "B") []) =
      [0, 1, 2, 3, 4, 5, 6] := by
    norm_num [sortIdx, List.insertionSort, List.orderedInsert, nbRel, simKey, dot, normSq,
      p7, List.range_succ]
  have hrt : recTitles (recommend_books books7 p7 "B") = ["B", "C", "D", "E", "F"] := by
    rw [recommend_books, if_pos (by decide : "B" ∈ p7.index), kneighbors, if_neg (by decide),
      hs]
    decide
  have hout : isOutput (recommend_books books7 p7 "B") = true := by
    rw [recommend_books, if_pos (by decide : "B" ∈ p7.index), kneighbors, if_neg (by decide),
      hs]
    decide
  refine ⟨hcm, by decide, by decide, hout, hrt, ?_⟩
  rw [hrt]
  decide

/-- Witness for `recommend_success_spec`: querying "A" (row index 0, so the
no-earlier-tie hypothesis holds vacuously) on the matrix built from `rs7`. -/
theorem recommend_success_spec_witness :
    isOutput (recommend_books books7 (book_pivot rs7) "A") = true ∧
      recCount (recommend_books books7 (book_pivot rs7) "A") = 5 ∧
      "A" ∉ recTitles (recommend_books books7 (book_pivot rs7) "A") :=
  recommend_success_spec books7 rs7 "A" (by decide) (by decide) (by decide) (by decide)

/-- Two identical one-column rows, the degenerate matrix refuting C6. -/
def rowsDup : List (List ℚ) := [[1], [1]]

/-- C6 counterexample: querying the fitted index with row 1's own non-zero
vector and `k = n = 2` returns row 0 — the identical row with the smaller
index — as the first result, not row 1 itself. -/
theorem kneighbors_first_counterexample :
    normSq (rowsDup.getD 1 []) ≠ 0 ∧
      kneighbors rowsDup (rowsDup.getD 1 []) 2 = some [0, 1] ∧
      ¬ ((sortIdx rowsDup (rowsDup.getD 1 [])).head? = some 1) := by
  have hs : sortIdx rowsDup (rowsDup.getD 1 []) = [0, 1] := by
    norm_num [sortIdx, List.insertionSort, List.orderedInsert, nbRel, simKey, dot, normSq,
      rowsDup, List.range_succ]
  refine ⟨?_, ?_, ?_⟩
  · norm_num [rowsDup, normSq]
  · rw [kneighbors, if_neg (by decide), hs]
    rfl
  · rw [hs]
    decide

/-- A one-row matrix for the C6 witness. -/
def rows1 : List (List ℚ) := [[1]]

/-- Witness for `kneighbors_self_dist_zero` on the one-row matrix. -/
theorem kneighbors_self_dist_zero_witness :
    kneighbors rows1 (rows1.getD 0 []) rows1.length =
        some (sortIdx rows1 (rows1.getD 0 [])) ∧
      0 ∈ sortIdx rows1 (rows1.getD 0 []) ∧
      cosDistZero (rows1.getD 0 []) (rows1.getD 0 []) :=
  kneighbors_self_dist_zero rows1 0 0 (by decide) (by simp [rows1, normSq])
    (by decide)

end FridayRec
